import Mathlib

/-!
Shallow embedding of the task-orchestration core of the `World` repository.

Embedded source files:
* `src/services/chatbot/rate_limit.py` — the sliding-window admission counter
  (`TTLHits`), with float timestamps modelled as rationals (`ℚ`) and the
  per-key `defaultdict` of deques modelled as an association list kept in
  insertion order, each deque a `List ℚ` oldest-first.
* `src/services/chatbot/deps.py` — the `check_rate_limit` request guard.
* `src/core/orchestrator.py` — `Task`, `WorldOrchestrator._select_agent`,
  `WorldOrchestrator._process_task`, `WorldOrchestrator.execute_command`,
  one pass of `WorldOrchestrator._task_processing_loop`, and
  `WorldOrchestrator._cleanup_old_tasks`.

Python exceptions are modelled with `Except`/`Option`; in-place mutation of
`Task` objects is modelled by returning the updated record; the wall clock is
an explicit `now : ℚ` argument; the `agents` dictionary is a function
`String → Option` of agent behaviours, an agent behaviour being a function
from the task to `Except String String` (raised exception message, or result).
The memory/experience sink (`self.memory.store_experience`) and logging are
side effects not observed by any property below and are not modelled.
-/

namespace World

/-! ### Association-list helpers (model of the Python `dict`) -/

/-- Lookup in the per-key map (`self.data.get(key)` / `self.data[key]`). -/
def assocFind (k : String) : List (String × List ℚ) → Option (List ℚ)
  | [] => none
  | (a, v) :: rest => if a = k then some v else assocFind k rest

/-- Store a binding, overwriting in place; a fresh key is appended, matching
Python dict insertion order. -/
def assocSet (k : String) (v : List ℚ) : List (String × List ℚ) → List (String × List ℚ)
  | [] => [(k, v)]
  | (a, w) :: rest => if a = k then (k, v) :: rest else (a, w) :: assocSet k v rest

/-- Remove a binding (`self.data.pop(key, None)`). -/
def assocErase (k : String) : List (String × List ℚ) → List (String × List ℚ)
  | [] => []
  | (a, w) :: rest => if a = k then rest else (a, w) :: assocErase k rest

/-! ### `TTLHits` (src/services/chatbot/rate_limit.py) -/

/-- Python class `TTLHits`: `ttl` seconds and the per-key map of hit timestamps,
oldest first. -/
structure TTLHits where
  ttl : ℚ
  data : List (String × List ℚ)
deriving DecidableEq

/-- The `while dq and dq[0] < cutoff: dq.popleft()` loop of `TTLHits._prune`:
drop the longest prefix of timestamps strictly below the cutoff. -/
def dropWhileLt (cutoff : ℚ) : List ℚ → List ℚ
  | [] => []
  | x :: xs => if x < cutoff then dropWhileLt cutoff xs else x :: xs

/-- Method `TTLHits._prune(key, now)`: trim entries older than `now - ttl`; a key
whose deque becomes empty is removed from the map; a missing or already-empty
key is left alone. -/
def TTLHits.prune (h : TTLHits) (key : String) (now : ℚ) : TTLHits :=
  match assocFind key h.data with
  | none => h
  | some dq =>
    if dq.isEmpty then h
    else
      let dq2 := dropWhileLt (now - h.ttl) dq
      if dq2.isEmpty then ⟨h.ttl, assocErase key h.data⟩
      else ⟨h.ttl, assocSet key dq2 h.data⟩

/-- Method `TTLHits.add(key, ts)`: append the hit (the `defaultdict` creates a fresh
empty deque for a missing key), prune, and return the number of hits still in
the window (0 when pruning removed the key, since the local deque is then
empty). -/
def TTLHits.add (h : TTLHits) (key : String) (now : ℚ) : TTLHits × Nat :=
  let h2 := TTLHits.prune ⟨h.ttl, assocSet key (((assocFind key h.data).getD []) ++ [now]) h.data⟩ key now
  (h2, ((assocFind key h2.data).getD []).length)

/-- Method `TTLHits.count(key, ts)`: prune, then return `len(self.data.get(key, ()))`. -/
def TTLHits.count (h : TTLHits) (key : String) (now : ℚ) : TTLHits × Nat :=
  let h2 := TTLHits.prune h key now
  (h2, ((assocFind key h2.data).getD []).length)

/-! ### `check_rate_limit` (src/services/chatbot/deps.py) -/

/-- The `fastapi.HTTPException` raised by the guard, reduced to the fields the
source sets. -/
structure HTTPException where
  status_code : Nat
  detail : String
deriving DecidableEq

/-- Constant `RATE_LIMIT = 60  # req/min/IP` of deps.py. -/
def RATE_LIMIT : Nat := 60

/-- The module-level `hits = TTLHits(ttl_seconds=60)` of rate_limit.py. -/
def hits0 : TTLHits := ⟨60, []⟩

/-- Guard `check_rate_limit(ip)`: record a hit for the client key and raise 429 when
the returned in-window count exceeds `RATE_LIMIT`. The raised exception is
returned as `some`; `none` means the request is admitted. -/
def check_rate_limit (h : TTLHits) (ip : String) (now : ℚ) : TTLHits × Option HTTPException :=
  let r := TTLHits.add h ip now
  (r.1, if RATE_LIMIT < r.2 then some ⟨429, "Too Many Requests"⟩ else none)

/-! ### Task model (src/core/orchestrator.py) -/

/-- The four status strings ever assigned to `Task.status`. -/
inductive TaskStatus
  | pending
  | processing
  | completed
  | failed
deriving DecidableEq

/-- Field `Task.result`: unset, a successful agent result, or the structured
`{"error": str(e)}` dictionary written on failure. -/
inductive TaskResult
  | noResult
  | ok (v : String)
  | err (msg : String)
deriving DecidableEq

/-- The `@dataclass Task` of src/core/orchestrator.py. Opaque payloads are
modelled as strings. -/
structure Task where
  id : String
  type : String
  description : String
  priority : Int := 1
  data : List (String × String) := []
  status : TaskStatus := .pending
  created_at : ℚ := 0
  assigned_agent : Option String := none
  result : TaskResult := .noResult
deriving DecidableEq

/-- The `agents` dictionary handed to `WorldOrchestrator.__init__`: each name
maps to an agent whose `process_task` either returns a result or raises. -/
def AgentMap : Type := String → Option (Task → Except String String)

/-! ### Agent selection (`WorldOrchestrator._select_agent`) -/

/-- Python `str.lower()` on the ASCII descriptions the router inspects. -/
def lowerStr (s : String) : String := String.mk (s.toList.map Char.toLower)

/-- The Python substring test `pat in s`, on character lists. -/
def hasSubChars (pat : List Char) : List Char → Bool
  | [] => pat.isEmpty
  | c :: rest => pat.isPrefixOf (c :: rest) || hasSubChars pat rest

/-- Python `pat in s` for strings. -/
def strHasSub (s pat : String) : Bool := hasSubChars pat.toList s.toList

/-- Python `any(keyword in task_lower for keyword in kws)`. -/
def containsAnyKeyword (s : String) (kws : List String) : Bool :=
  kws.any fun kw => strHasSub s kw

def codingKeywords : List String := ["code", "program", "script", "build", "create", "develop"]

def dataKeywords : List String := ["scrape", "data", "collect", "extract", "analyze"]

def communicationKeywords : List String := ["chat", "message", "email", "communicate"]

def businessKeywords : List String := ["sales", "lead", "business", "marketing"]

def analyticsKeywords : List String := ["report", "analytics", "insights", "metrics"]

/-- Method `WorldOrchestrator._select_agent`: the ordered keyword-predicate chain over
the lowercased description, falling back to the default name `orchestrator`. -/
def select_agent (task : Task) : String :=
  let task_lower := lowerStr task.description
  if containsAnyKeyword task_lower codingKeywords then "coding"
  else if containsAnyKeyword task_lower dataKeywords then "data"
  else if containsAnyKeyword task_lower communicationKeywords then "communication"
  else if containsAnyKeyword task_lower businessKeywords then "business"
  else if containsAnyKeyword task_lower analyticsKeywords then "analytics"
  else "orchestrator"

/-! ### Task processing (`WorldOrchestrator._process_task`) -/

/-- Outcome of one `_process_task` call: the task record after the in-place
mutations, the ids on which an agent `process_task` coroutine was actually
invoked (the observable call trace), and the returned value or the exception
that propagates out of `_process_task` (which re-raises after marking the task
failed). -/
structure PTResult where
  task : Task
  calls : List String
  outcome : Except String String

/-- Method `WorldOrchestrator._process_task`: select an agent (the selector is total,
so the `if not agent_name` ValueError branch is unreachable), set
`assigned_agent` and `status = "processing"`, look the agent up in the
`agents` dict (raising `Agent ... not found` on a miss), invoke it, and record
`completed`/result on success or `failed`/`{"error": str(e)}` on any
exception, which is then re-raised. -/
def process_task (agents : AgentMap) (task : Task) : PTResult :=
  let agent_name := select_agent task
  let task1 : Task := { task with assigned_agent := some agent_name, status := .processing }
  match agents agent_name with
  | none =>
    let msg := "Agent " ++ agent_name ++ " not found"
    ⟨{ task1 with status := .failed, result := .err msg }, [], .error msg⟩
  | some proc =>
    match proc task1 with
    | .ok r => ⟨{ task1 with status := .completed, result := .ok r }, [task.id], .ok r⟩
    | .error e => ⟨{ task1 with status := .failed, result := .err e }, [task.id], .error e⟩

/-! ### Orchestrator state and public operations -/

/-- The mutable fields of `WorldOrchestrator` the core operations touch:
`self.tasks` and `self.running`. -/
structure OrchState where
  tasks : List Task
  running : Bool
deriving DecidableEq

/-- Method `start()` sets `self.running = True` (the loop itself is modelled by
`task_processing_iteration` below). -/
def start (st : OrchState) : OrchState := ⟨st.tasks, true⟩

/-- Method `stop()` sets `self.running = False` and nothing else. -/
def stop (st : OrchState) : OrchState := ⟨st.tasks, false⟩

/-- The `Task(...)` literal built at the top of `execute_command`: the id is
derived from the current wall-clock timestamp, the type is `"command"`, the
status defaults to pending. -/
def mkCommandTask (command : String) (context : List (String × String)) (now : ℚ) : Task :=
  { id := "task_" ++ toString now
    type := "command"
    description := command
    data := context
    created_at := now }

/-- The dictionary `execute_command` returns (timestamp field omitted: it is
wall-clock noise observed by nothing). -/
structure CommandResponse where
  success : Bool
  task_id : Option String := none
  result : Option String := none
  error : Option String := none
deriving DecidableEq

/-- Method `WorldOrchestrator.execute_command`: create the task, append it to
`self.tasks`, process it inline on the calling path, and convert any raised
exception into a `success: False` response. The appended list element is the
task object itself, so it reflects the mutations `_process_task` made. -/
def execute_command (agents : AgentMap) (st : OrchState) (command : String)
    (context : List (String × String)) (now : ℚ) : OrchState × CommandResponse :=
  let r := process_task agents (mkCommandTask command context now)
  let st2 : OrchState := ⟨st.tasks ++ [r.task], st.running⟩
  match r.outcome with
  | .ok res => (st2, { success := true, task_id := some (mkCommandTask command context now).id, result := some res })
  | .error e => (st2, { success := false, error := some e })

/-- The `for task in pending_tasks` body of `_task_processing_loop`: process
every task whose status is pending, in list order, swallowing (logging) any
exception a `_process_task` call re-raises and carrying on with the next
task. Returns the updated task list and the concatenated agent-invocation
trace. -/
def process_pending (agents : AgentMap) : List Task → List Task × List String
  | [] => ([], [])
  | t :: ts =>
    let rest := process_pending agents ts
    if t.status = .pending then
      let r := process_task agents t
      (r.task :: rest.1, r.calls ++ rest.2)
    else (t :: rest.1, rest.2)

/-- Method `WorldOrchestrator._cleanup_old_tasks`: keep a task iff it is younger than
one hour (`3600` seconds) or currently `processing`. -/
def cleanup_old_tasks (tasks : List Task) (now : ℚ) : List Task :=
  tasks.filter fun t => decide (now - 3600 < t.created_at) || decide (t.status = .processing)

/-- One pass of `WorldOrchestrator._task_processing_loop`: when `self.running`
holds, process the pending tasks in order and then run the cleanup; the
`running` flag is never written by the loop. Returns the new state and the
agent-invocation trace of this pass. -/
def task_processing_iteration (agents : AgentMap) (st : OrchState) (now : ℚ) :
    OrchState × List String :=
  if st.running then
    let r := process_pending agents st.tasks
    (⟨cleanup_old_tasks r.1 now, st.running⟩, r.2)
  else (st, [])

/-! ### Concrete fixtures used by witnesses and counterexamples -/

/-- An agents dictionary in which every name is bound to an agent that
succeeds with `"done"`. -/
def agentOkMap : AgentMap := fun _ => some fun _ => .ok "done"

/-- An agents dictionary in which every name is bound to an agent that raises
`"boom"`. -/
def agentErrMap : AgentMap := fun _ => some fun _ => .error "boom"

/-- Small task literal: the description `"hello"` matches no routing keyword. -/
def mkT (i : String) (s : TaskStatus) : Task :=
  { id := i, type := "command", description := "hello", status := s }

/-- Runs `n` consecutive guarded requests from the same client key at time `now`,
starting from the module-level `hits` counter: each request runs
`check_rate_limit` once, and the log records the exception each request
raised, if any. -/
def repeat_check (k : String) (now : ℚ) : Nat → TTLHits × List (Option HTTPException)
  | 0 => (hits0, [])
  | n + 1 =>
    let p := repeat_check k now n
    let c := check_rate_limit p.1 k now
    (c.1, p.2 ++ [c.2])

/-- Modelled from the spec: the request-boundary wiring — FastAPI runs the
`check_rate_limit` dependency before the request handler, and a raised
`HTTPException` aborts the request before any handler code runs — is not
itself part of the embedded source files. This definition composes the
in-source guard with a task-creating handler accordingly: on a raised 429 the
orchestrator state is returned untouched (no Task is created), otherwise the
handler submits the command. -/
def boundary_submit (A : AgentMap) (st : OrchState) (h : TTLHits) (ip command : String)
    (now : ℚ) : (TTLHits × OrchState) × Option HTTPException :=
  match check_rate_limit h ip now with
  | (h2, some exc) => ((h2, st), some exc)
  | (h2, none) => ((h2, (execute_command A st command [] now).1), none)

/-- The scenario state of the rate-limiter unit test: `ttl = 1`, then
`add "k" 0.0`, `add "k" 0.5`, `add "k" 1.0`. -/
def c3_state : TTLHits :=
  ((((TTLHits.mk 1 []).add "k" 0).1.add "k" (1/2)).1.add "k" 1).1

/-- C3: with `ttl = 1`, after `Add("k", 0.0)`, `Add("k", 0.5)`, `Add("k", 1.0)`,
`Count("k", 1.0)` returns 3; `Count("k", 2.1)` returns 0 and afterwards the
key `"k"` is absent from the internal per-key map (no empty bucket remains). -/
theorem c3_rate_limiter_window :
    (c3_state.count "k" 1).2 = 3
    ∧ (c3_state.count "k" (21/10)).2 = 0
    ∧ assocFind "k" ((c3_state.count "k" (21/10)).1.data) = none := by
  norm_num [c3_state, TTLHits.add, TTLHits.count, TTLHits.prune, assocFind,
    assocSet, assocErase, dropWhileLt]

/-! ### Shared lemmas about `process_task` and the loop body -/

/-- When `_process_task` re-raises an exception, the task record was first
marked `failed` with the stringified error stored as its result. -/
theorem process_task_error_shape (A : AgentMap) (t : Task) (e : String)
    (h : (process_task A t).outcome = .error e) :
    (process_task A t).task.status = .failed ∧ (process_task A t).task.result = .err e := by
  unfold process_task at h ⊢
  cases hA : A (select_agent t) with
  | none =>
    simp [hA] at h ⊢
    simp [h]
  | some proc =>
    cases hp : proc { t with assigned_agent := some (select_agent t), status := .processing } with
    | ok r => simp [hA, hp] at h
    | error e2 =>
      simp [hA, hp] at h ⊢
      simp [h]

/-- The loop body distributes over list concatenation: it never stops early,
whatever the statuses and outcomes of the tasks in the first part. -/
theorem process_pending_append (A : AgentMap) (xs ys : List Task) :
    process_pending A (xs ++ ys)
      = ((process_pending A xs).1 ++ (process_pending A ys).1,
         (process_pending A xs).2 ++ (process_pending A ys).2) := by
  induction xs with
  | nil => simp [process_pending]
  | cons t xs ih =>
    by_cases h : t.status = .pending <;>
      simp [process_pending, ih, h]

/-! ### C2 — lifecycle monotonicity -/

/-- C2 counterexample: the code has no transition guard and defines no
`InvalidTransition` error; `_process_task` applied to a task whose status is
already terminal (`completed`) silently re-runs it, moving it through
`processing` to `failed` — the claimed failure with `InvalidTransition` does
not happen at this concrete input. -/
theorem c2_counterexample :
    (mkT "x" TaskStatus.completed).status = .completed
    ∧ (process_task agentErrMap (mkT "x" TaskStatus.completed)).task.status = .failed
    ∧ (process_task agentErrMap (mkT "x" TaskStatus.completed)).outcome = .error "boom" :=
  ⟨rfl, rfl, rfl⟩

/-- C2 (amended): tasks are created `pending` by `execute_command`;
`_process_task` always moves its task into `processing` (recording the
assigned agent) and ends it `completed` or `failed`; and the background loop
body never touches a task that is not `pending`, so along the operations of the code itself a task status follows `pending → processing → {completed,
failed}` and terminal statuses are not revisited. The code, however, enforces
nothing: there is no `InvalidTransition` error anywhere. -/
theorem c2_lifecycle_amended :
    (∀ (cmd : String) (ctx : List (String × String)) (now : ℚ),
        (mkCommandTask cmd ctx now).status = .pending)
    ∧ (∀ (A : AgentMap) (t : Task),
        ((process_task A t).task.status = .completed
          ∨ (process_task A t).task.status = .failed)
        ∧ (process_task A t).task.assigned_agent = some (select_agent t))
    ∧ (∀ (A : AgentMap) (ts : List Task) (u : Task),
        u ∈ ts → u.status ≠ .pending → u ∈ (process_pending A ts).1) := by
  refine ⟨fun _ _ _ => rfl, fun A t => ?_, fun A ts u hu hs => ?_⟩
  · unfold process_task
    cases hA : A (select_agent t) with
    | none => simp [hA]
    | some proc =>
      cases hp : proc { t with assigned_agent := some (select_agent t), status := .processing } <;>
        simp [hA, hp]
  · induction ts with
    | nil => simp at hu
    | cons t ts ih =>
      rcases List.mem_cons.mp hu with h | h
      · subst h
        have : ¬ u.status = TaskStatus.pending := hs
        simp [process_pending, this]
      · by_cases hts : t.status = TaskStatus.pending <;>
          simp [process_pending, hts, ih h]

/-- C2 witness: a `completed` task in the registry survives a loop pass
untouched. -/
theorem c2_witness :
    mkT "done1" TaskStatus.completed
      ∈ (process_pending agentOkMap [mkT "done1" TaskStatus.completed]).1 :=
  c2_lifecycle_amended.2.2 agentOkMap [mkT "done1" TaskStatus.completed]
    (mkT "done1" TaskStatus.completed) (by simp) (by decide)

/-! ### C4 — purge frame condition -/

/-- C4 counterexample: a `pending` task created at time 0 is removed by the
cleanup run at time 7200 (cutoff 3600), although the claim says pending tasks
are left in the registry unchanged regardless of age. -/
theorem c4_counterexample :
    (mkT "old" TaskStatus.pending).status = .pending
    ∧ (mkT "old" TaskStatus.pending).created_at = 0
    ∧ cleanup_old_tasks [mkT "old" TaskStatus.pending] 7200 = [] := by
  refine ⟨rfl, rfl, ?_⟩
  norm_num [cleanup_old_tasks, mkT]
  decide

/-- C4 (amended): the cleanup keeps exactly the tasks that are younger than
the one-hour retention window or currently `processing`; every other task —
terminal ones **and old pending ones** — is removed, and `processing` tasks
are kept regardless of age. -/
theorem c4_cleanup_amended (tasks : List Task) (now : ℚ) (t : Task) :
    t ∈ cleanup_old_tasks tasks now
      ↔ t ∈ tasks ∧ (now - 3600 < t.created_at ∨ t.status = .processing) := by
  simp [cleanup_old_tasks, List.mem_filter]

/-! ### C5 — submission after shutdown -/

/-- C5 counterexample: after `stop()` the orchestrator still accepts
`execute_command`: at this concrete input the call succeeds and a new task is
created, instead of failing with the claimed `SchedulerStopped` error (which
does not exist in the code). -/
theorem c5_counterexample :
    (stop ⟨[], true⟩).running = false
    ∧ (execute_command agentOkMap (stop ⟨[], true⟩) "hello" [] 5).2.success = true
    ∧ (execute_command agentOkMap (stop ⟨[], true⟩) "hello" [] 5).1.tasks.length = 1 :=
  ⟨rfl, rfl, rfl⟩

/-- C5 (amended): `execute_command` never consults the `running` flag — its
response is the same whether shutdown has begun or not, it always appends the
newly created (and inline-processed) task, and it leaves the flag as it was;
`stop()` only makes the background loop do nothing. -/
theorem c5_no_shutdown_guard (A : AgentMap) (tasks : List Task) (cmd : String)
    (ctx : List (String × String)) (now : ℚ) :
    (execute_command A ⟨tasks, false⟩ cmd ctx now).2
      = (execute_command A ⟨tasks, true⟩ cmd ctx now).2
    ∧ (execute_command A ⟨tasks, false⟩ cmd ctx now).1.tasks
      = tasks ++ [(process_task A (mkCommandTask cmd ctx now)).task]
    ∧ (execute_command A ⟨tasks, false⟩ cmd ctx now).1.running = false
    ∧ task_processing_iteration A ⟨tasks, false⟩ now = (⟨tasks, false⟩, []) := by
  unfold execute_command task_processing_iteration
  cases h : (process_task A (mkCommandTask cmd ctx now)).outcome <;> simp [h]

/-! ### C8 — agent-failure conversion at the synchronous boundary -/

/-- C8: when the selected agent raises during `execute_command`, the exception
is converted at the boundary: the appended task ends `failed` with the
structured error string as its result (never a raw exception object), and the
caller receives a `success: False` response carrying the error instead of a
propagated exception (`execute_command` is total). -/
theorem c8_agent_failure_boundary (A : AgentMap) (st : OrchState) (cmd : String)
    (ctx : List (String × String)) (now : ℚ) (e : String)
    (hfail : (process_task A (mkCommandTask cmd ctx now)).outcome = .error e) :
    (execute_command A st cmd ctx now).2
      = { success := false, task_id := none, result := none, error := some e }
    ∧ (execute_command A st cmd ctx now).1.tasks
      = st.tasks ++ [(process_task A (mkCommandTask cmd ctx now)).task]
    ∧ (process_task A (mkCommandTask cmd ctx now)).task.status = .failed
    ∧ (process_task A (mkCommandTask cmd ctx now)).task.result = .err e := by
  obtain ⟨h1, h2⟩ := process_task_error_shape A (mkCommandTask cmd ctx now) e hfail
  unfold execute_command
  simp [hfail, h1, h2]

/-- C8 witness: a concrete raising agent, observed at the boundary. -/
theorem c8_witness :
    (execute_command agentErrMap ⟨[], true⟩ "hello" [] 0).2
      = { success := false, task_id := none, result := none, error := some "boom" }
    ∧ (execute_command agentErrMap ⟨[], true⟩ "hello" [] 0).1.tasks
      = [] ++ [(process_task agentErrMap (mkCommandTask "hello" [] 0)).task]
    ∧ (process_task agentErrMap (mkCommandTask "hello" [] 0)).task.status = .failed
    ∧ (process_task agentErrMap (mkCommandTask "hello" [] 0)).task.result = .err "boom" :=
  c8_agent_failure_boundary agentErrMap ⟨[], true⟩ "hello" [] 0 "boom" rfl

/-! ### C1 — failure containment of the background loop -/

/-- C1: when the agent invocation for one queued task raises, the loop pass
still runs to completion: the failure is recorded on that task (`failed`,
structured error result), every other pending task before and after it is
still dequeued and processed (the invocation trace splits around the failing
task), and the `running` flag of the loop is untouched, so the loop does not
terminate. -/
theorem c1_loop_survives_agent_failure (A : AgentMap) (st : OrchState) (now : ℚ)
    (pre post : List Task) (t : Task) (e : String)
    (hrun : st.running = true)
    (hsplit : st.tasks = pre ++ t :: post)
    (hpend : t.status = .pending)
    (hfail : (process_task A t).outcome = .error e) :
    (task_processing_iteration A st now).2
      = (process_pending A pre).2 ++ (process_task A t).calls ++ (process_pending A post).2
    ∧ (process_task A t).task.status = .failed
    ∧ (process_task A t).task.result = .err e
    ∧ (task_processing_iteration A st now).1.running = true := by
  obtain ⟨h1, h2⟩ := process_task_error_shape A t e hfail
  unfold task_processing_iteration
  rw [hsplit]
  have hcons : process_pending A (t :: post)
      = ((process_task A t).task :: (process_pending A post).1,
         (process_task A t).calls ++ (process_pending A post).2) := by
    simp [process_pending, hpend]
  simp [hrun, process_pending_append, hcons, h1, h2]

/-- C1 witness: two pending tasks, the agent of the first one raises; both are
still invoked in order and the loop stays running. -/
theorem c1_witness :
    (task_processing_iteration agentErrMap
        ⟨[mkT "a" TaskStatus.pending, mkT "b" TaskStatus.pending], true⟩ 0).2
      = (process_pending agentErrMap []).2
          ++ (process_task agentErrMap (mkT "a" TaskStatus.pending)).calls
          ++ (process_pending agentErrMap [mkT "b" TaskStatus.pending]).2
    ∧ (process_task agentErrMap (mkT "a" TaskStatus.pending)).task.status = .failed
    ∧ (process_task agentErrMap (mkT "a" TaskStatus.pending)).task.result = .err "boom"
    ∧ (task_processing_iteration agentErrMap
        ⟨[mkT "a" TaskStatus.pending, mkT "b" TaskStatus.pending], true⟩ 0).1.running = true :=
  c1_loop_survives_agent_failure agentErrMap
    ⟨[mkT "a" TaskStatus.pending, mkT "b" TaskStatus.pending], true⟩ 0
    [] [mkT "b" TaskStatus.pending] (mkT "a" TaskStatus.pending) "boom" rfl rfl rfl rfl

/-! ### C6 — FIFO processing order -/

/-- On a queue of pending tasks whose selected agents all exist, the loop body
invokes exactly one agent per task, in queue order. -/
theorem process_pending_all_pending (A : AgentMap) (ts : List Task)
    (hpend : ∀ t ∈ ts, t.status = .pending)
    (hfound : ∀ t ∈ ts, (A (select_agent t)).isSome = true) :
    (process_pending A ts).2 = ts.map Task.id := by
  induction ts with
  | nil => simp [process_pending]
  | cons t ts ih =>
    have hp := hpend t (by simp)
    have hf := hfound t (by simp)
    obtain ⟨proc, hproc⟩ := Option.isSome_iff_exists.mp hf
    have hc : (process_task A t).calls = [t.id] := by
      simp only [process_task, hproc]
      cases hpc : proc { t with assigned_agent := some (select_agent t), status := .processing } <;>
        simp [hpc]
    have ihr := ih (fun u hu => hpend u (by simp [hu])) (fun u hu => hfound u (by simp [hu]))
    simp [process_pending, hp, hc, ihr]

/-- C6: tasks enqueued in submission order (`self.tasks` is append-only) are
processed by the background loop in exactly that order: one loop pass over a
queue of pending tasks, each of which the router resolves to an existing
agent, produces the agent-invocation trace equal to the queued ids in
submission order. -/
theorem c6_fifo_order (A : AgentMap) (st : OrchState) (now : ℚ)
    (hrun : st.running = true)
    (hpend : ∀ t ∈ st.tasks, t.status = .pending)
    (hfound : ∀ t ∈ st.tasks, (A (select_agent t)).isSome = true) :
    (task_processing_iteration A st now).2 = st.tasks.map Task.id := by
  unfold task_processing_iteration
  simp [hrun, process_pending_all_pending A st.tasks hpend hfound]

/-- C6 witness: three identically described pending tasks with ids
`"0"`, `"1"`, `"2"` are invoked in order `["0", "1", "2"]`. -/
theorem c6_witness :
    (task_processing_iteration agentOkMap
        ⟨[mkT "0" TaskStatus.pending, mkT "1" TaskStatus.pending, mkT "2" TaskStatus.pending],
          true⟩ 0).2
      = ["0", "1", "2"] :=
  (c6_fifo_order agentOkMap
    ⟨[mkT "0" TaskStatus.pending, mkT "1" TaskStatus.pending, mkT "2" TaskStatus.pending], true⟩
    0 rfl (by decide) (by decide)).trans rfl

/-! ### C9 — deterministic first-match routing with fallback -/

/-- C9: `_select_agent` evaluates the capability keyword predicates over the
lowercased description in the fixed order coding, data, communication,
business, analytics; the first matching predicate wins; a description
matching none of them gets the default `"orchestrator"` agent, so selection
always yields one of the six agent names; and the description
`"create project demo"` (also in different letter case) is routed to
`"coding"`. -/
theorem c9_first_match_routing :
    (∀ t : Task,
        select_agent t ∈ ["coding", "data", "communication", "business", "analytics", "orchestrator"])
    ∧ (∀ t : Task,
        containsAnyKeyword (lowerStr t.description) codingKeywords = true →
        select_agent t = "coding")
    ∧ (∀ t : Task,
        containsAnyKeyword (lowerStr t.description) codingKeywords = false →
        containsAnyKeyword (lowerStr t.description) dataKeywords = true →
        select_agent t = "data")
    ∧ (∀ t : Task,
        containsAnyKeyword (lowerStr t.description) codingKeywords = false →
        containsAnyKeyword (lowerStr t.description) dataKeywords = false →
        containsAnyKeyword (lowerStr t.description) communicationKeywords = true →
        select_agent t = "communication")
    ∧ (∀ t : Task,
        containsAnyKeyword (lowerStr t.description) codingKeywords = false →
        containsAnyKeyword (lowerStr t.description) dataKeywords = false →
        containsAnyKeyword (lowerStr t.description) communicationKeywords = false →
        containsAnyKeyword (lowerStr t.description) businessKeywords = true →
        select_agent t = "business")
    ∧ (∀ t : Task,
        containsAnyKeyword (lowerStr t.description) codingKeywords = false →
        containsAnyKeyword (lowerStr t.description) dataKeywords = false →
        containsAnyKeyword (lowerStr t.description) communicationKeywords = false →
        containsAnyKeyword (lowerStr t.description) businessKeywords = false →
        containsAnyKeyword (lowerStr t.description) analyticsKeywords = true →
        select_agent t = "analytics")
    ∧ (∀ t : Task,
        containsAnyKeyword (lowerStr t.description) codingKeywords = false →
        containsAnyKeyword (lowerStr t.description) dataKeywords = false →
        containsAnyKeyword (lowerStr t.description) communicationKeywords = false →
        containsAnyKeyword (lowerStr t.description) businessKeywords = false →
        containsAnyKeyword (lowerStr t.description) analyticsKeywords = false →
        select_agent t = "orchestrator")
    ∧ select_agent { id := "d1", type := "command", description := "create project demo" } = "coding"
    ∧ select_agent { id := "d2", type := "command", description := "CREATE Project DEMO" } = "coding" := by
  refine ⟨fun t => ?_, fun t h1 => ?_, fun t h1 h2 => ?_, fun t h1 h2 h3 => ?_,
    fun t h1 h2 h3 h4 => ?_, fun t h1 h2 h3 h4 h5 => ?_, fun t h1 h2 h3 h4 h5 => ?_,
    by decide, by decide⟩
  · unfold select_agent
    rcases hc : containsAnyKeyword (lowerStr t.description) codingKeywords <;>
      rcases hd : containsAnyKeyword (lowerStr t.description) dataKeywords <;>
      rcases hm : containsAnyKeyword (lowerStr t.description) communicationKeywords <;>
      rcases hb : containsAnyKeyword (lowerStr t.description) businessKeywords <;>
      rcases ha : containsAnyKeyword (lowerStr t.description) analyticsKeywords <;>
      simp [hc, hd, hm, hb, ha]
  all_goals unfold select_agent
  · simp [h1]
  · simp [h1, h2]
  · simp [h1, h2, h3]
  · simp [h1, h2, h3, h4]
  · simp [h1, h2, h3, h4, h5]
  · simp [h1, h2, h3, h4, h5]

/-- C9 witness: a description containing no capability keyword falls back to
the `"orchestrator"` agent. -/
theorem c9_witness : select_agent (mkT "w9" TaskStatus.pending) = "orchestrator" :=
  c9_first_match_routing.2.2.2.2.2.2.1 (mkT "w9" TaskStatus.pending)
    (by decide) (by decide) (by decide) (by decide) (by decide)

/-! ### C10 — pruning-cutoff boundary -/

/-- A single hit recorded in an empty counter at time `t` survives the pruning
the `add` itself performs, provided the TTL is nonnegative. -/
theorem add_to_empty (ttl t : ℚ) (k : String) (h : 0 ≤ ttl) :
    (TTLHits.mk ttl []).add k t = (⟨ttl, [(k, [t])]⟩, 1) := by
  have hnl : ¬ t < t - ttl := by linarith
  simp [TTLHits.add, TTLHits.prune, assocFind, assocSet, dropWhileLt, hnl]

/-- C10: the prune comparison is strict — a hit recorded at `t` still counts
at query time exactly `t + ttl`, and it is dropped (with its key removed from
the map) only at query times strictly greater than `t + ttl`. -/
theorem c10_strict_prune_cutoff (ttl t t' : ℚ) (k : String)
    (httl : 0 ≤ ttl) (ht' : t + ttl < t') :
    (((TTLHits.mk ttl []).add k t).1.count k (t + ttl)).2 = 1
    ∧ (((TTLHits.mk ttl []).add k t).1.count k t').2 = 0
    ∧ assocFind k ((((TTLHits.mk ttl []).add k t).1.count k t').1.data) = none := by
  have hs := add_to_empty ttl t k httl
  have hkeep : ¬ t < t + ttl - ttl := by
    have : t + ttl - ttl = t := by ring
    simp [this]
  have hdrop : t < t' - ttl := by linarith
  refine ⟨?_, ?_, ?_⟩ <;>
    simp [hs, TTLHits.count, TTLHits.prune, assocFind, assocSet, assocErase,
      dropWhileLt, hkeep, hdrop]

/-- C10 witness: `ttl = 2`, a hit at `t = 3` still counts at time 5 and is
gone, key included, at time 6. -/
theorem c10_witness :
    (((TTLHits.mk 2 []).add "w10" 3).1.count "w10" (3 + 2)).2 = 1
    ∧ (((TTLHits.mk 2 []).add "w10" 3).1.count "w10" 6).2 = 0
    ∧ assocFind "w10" ((((TTLHits.mk 2 []).add "w10" 3).1.count "w10" 6).1.data) = none :=
  c10_strict_prune_cutoff 2 3 6 "w10" (by norm_num) (by norm_num)

/-! ### C7 — admission rejection at the boundary -/

/-- One unfolding of the request-repetition recursion. -/
theorem repeat_check_succ (k : String) (now : ℚ) (n : Nat) :
    repeat_check k now (n + 1)
      = ((check_rate_limit (repeat_check k now n).1 k now).1,
         (repeat_check k now n).2 ++ [(check_rate_limit (repeat_check k now n).1 k now).2]) :=
  rfl

/-- A hit at the head of the bucket at or past the cutoff stops the prefix
trim immediately. -/
theorem dropWhileLt_cons_of_not_lt (c x : ℚ) (xs : List ℚ) (h : ¬ x < c) :
    dropWhileLt c (x :: xs) = x :: xs := by
  simp [dropWhileLt, h]

/-- Adding another hit at time 0 to a bucket of `n + 1` hits at time 0 keeps
them all (`ttl = 60`) and returns `n + 2`. -/
theorem add_replicate (k : String) (n : Nat) :
    TTLHits.add ⟨60, [(k, List.replicate (n + 1) (0 : ℚ))]⟩ k 0
      = (⟨60, [(k, List.replicate (n + 2) (0 : ℚ))]⟩, n + 2) := by
  have happ : List.replicate (n + 1) (0 : ℚ) ++ [0] = List.replicate (n + 2) (0 : ℚ) := by
    rw [← List.replicate_succ']
  have hdrop : dropWhileLt ((0 : ℚ) - 60) (List.replicate (n + 2) (0 : ℚ))
      = List.replicate (n + 2) (0 : ℚ) := by
    rw [List.replicate_succ]
    exact dropWhileLt_cons_of_not_lt _ _ _ (by norm_num)
  have hfind : assocFind k [(k, List.replicate (n + 1) (0 : ℚ))]
      = some (List.replicate (n + 1) (0 : ℚ)) := by
    simp [assocFind]
  have hfind2 : assocFind k [(k, List.replicate (n + 2) (0 : ℚ))]
      = some (List.replicate (n + 2) (0 : ℚ)) := by
    simp [assocFind]
  have hset : assocSet k (List.replicate (n + 2) (0 : ℚ)) [(k, List.replicate (n + 1) (0 : ℚ))]
      = [(k, List.replicate (n + 2) (0 : ℚ))] := by
    simp [assocSet]
  have hset2 : assocSet k (List.replicate (n + 2) (0 : ℚ)) [(k, List.replicate (n + 2) (0 : ℚ))]
      = [(k, List.replicate (n + 2) (0 : ℚ))] := by
    simp [assocSet]
  have hne : (List.replicate (n + 2) (0 : ℚ)).isEmpty = false := by
    rw [List.replicate_succ]
    rfl
  simp only [TTLHits.add, TTLHits.prune, hfind, Option.getD_some, happ, hset, hfind2, hne,
    Bool.false_eq_true, if_false, hdrop, hset2, List.length_replicate]

/-- Closed form of `n + 1` guarded requests from one key at time 0: the bucket
holds `n + 1` hits, and request `i` (0-based) was rejected iff its returned
count `i + 1` exceeded the threshold 60. -/
theorem repeat_check_closed (k : String) (n : Nat) :
    repeat_check k 0 (n + 1)
      = (⟨60, [(k, List.replicate (n + 1) (0 : ℚ))]⟩,
         (List.range (n + 1)).map fun i =>
           if 60 < i + 1 then some ⟨429, "Too Many Requests"⟩ else none) := by
  induction n with
  | zero =>
    have hadd0 : TTLHits.add hits0 k 0 = (⟨60, [(k, [(0 : ℚ)])]⟩, 1) := by
      have hdrop0 : dropWhileLt ((0 : ℚ) - 60) [(0 : ℚ)] = [(0 : ℚ)] :=
        dropWhileLt_cons_of_not_lt _ _ _ (by norm_num)
      simp only [TTLHits.add, TTLHits.prune, hits0, assocFind, assocSet, Option.getD_none,
        List.nil_append, if_pos, List.isEmpty_cons, Bool.false_eq_true, if_false, hdrop0,
        List.length_cons, List.length_nil]
      rfl
    have h00 : repeat_check k 0 0 = (hits0, []) := rfl
    rw [repeat_check_succ k 0 0, h00]
    simp only [check_rate_limit, hadd0, RATE_LIMIT]
    norm_num [List.range_succ]
  | succ n ih =>
    have hchecks : check_rate_limit ⟨60, [(k, List.replicate (n + 1) (0 : ℚ))]⟩ k 0
        = (⟨60, [(k, List.replicate (n + 2) (0 : ℚ))]⟩,
           if 60 < n + 2 then some ⟨429, "Too Many Requests"⟩ else none) := by
      simp only [check_rate_limit, add_replicate k n, RATE_LIMIT]
    rw [repeat_check_succ k 0 (n + 1), ih]
    simp only [hchecks]
    conv_rhs => rw [List.range_succ]
    simp only [List.map_append, List.map_cons, List.map_nil, Nat.add_assoc]

/-- C7: with the threshold 60 per window, 61 `Add` calls for the same key
within the window: the first 60 guarded requests are admitted (no exception),
the 61st `Add` returns count 61, the 61st guarded request is rejected with
the 429 "Too Many Requests" exception, and at the boundary that rejection
returns before any task is created — the orchestrator state is untouched. -/
theorem c7_admission_threshold (k : String) (A : AgentMap) (st : OrchState) :
    (repeat_check k 0 60).2 = List.replicate 60 none
    ∧ ((repeat_check k 0 60).1.add k 0).2 = 61
    ∧ (repeat_check k 0 61).2
        = (repeat_check k 0 60).2 ++ [some ⟨429, "Too Many Requests"⟩]
    ∧ (boundary_submit A st (repeat_check k 0 60).1 k "hello" 0).1.2 = st
    ∧ (boundary_submit A st (repeat_check k 0 60).1 k "hello" 0).2
        = some ⟨429, "Too Many Requests"⟩ := by
  have h60 : repeat_check k 0 60
      = (⟨60, [(k, List.replicate 60 (0 : ℚ))]⟩,
         (List.range 60).map fun i =>
           if 60 < i + 1 then some ⟨429, "Too Many Requests"⟩ else none) :=
    repeat_check_closed k 59
  have h60s : (repeat_check k 0 60).1 = ⟨60, [(k, List.replicate 60 (0 : ℚ))]⟩ := by
    rw [h60]
  have h60l : (repeat_check k 0 60).2
      = (List.range 60).map fun i =>
          if 60 < i + 1 then some ⟨429, "Too Many Requests"⟩ else none := by
    rw [h60]
  have hadd : TTLHits.add ⟨60, [(k, List.replicate 60 (0 : ℚ))]⟩ k 0
      = (⟨60, [(k, List.replicate 61 (0 : ℚ))]⟩, 61) :=
    add_replicate k 59
  have hcheck : check_rate_limit ⟨60, [(k, List.replicate 60 (0 : ℚ))]⟩ k 0
      = (⟨60, [(k, List.replicate 61 (0 : ℚ))]⟩, some ⟨429, "Too Many Requests"⟩) := by
    simp only [check_rate_limit, hadd, RATE_LIMIT]
    norm_num
  refine ⟨?_, ?_, ?_, ?_, ?_⟩
  · rw [h60l]
    refine List.eq_replicate_iff.mpr ⟨by simp, ?_⟩
    intro r hr
    obtain ⟨i, hi, rfl⟩ := List.mem_map.mp hr
    have : i < 60 := List.mem_range.mp hi
    rw [if_neg (by omega)]
  · rw [h60s, hadd]
  · show (repeat_check k 0 (60 + 1)).2 = _
    rw [repeat_check_succ k 0 60, h60s]
    simp only [hcheck]
  · simp only [boundary_submit, h60s, hcheck]
  · simp only [boundary_submit, h60s, hcheck]

end World
